import Mathlib

/-! Verification development for crackExtraction, `src/main.cpp`.

A shallow embedding of the coordinate normalisation (`preprocessing`,
`postprocessing`), of the quad splitting of `getSurfaceMeshFromVdbGrid`, of the
narrow-band offset loop and boolean stage of `main`, and of the order in which
`main` calls its stages.

Coordinates are `double` in the source.  The definitions are stated for any
type with the operations the source uses.  The general theorems read them over
an arbitrary linearly ordered field `α` (exact arithmetic), so they hold in
particular over `ℚ` (used for concrete evaluations) and over `ℝ`; the type
`Double` reads them with binary64 rounding.
-/

namespace CrackExtraction

/-! ## Data model -/

/-- The type `Eigen::Vector3d`: the source reads its coordinates as `v[0]`, `v[1]`,
`v[2]`; here they are the fields `x`, `y`, `z`. -/
structure Vector3d (α : Type) where
  x : α
  y : α
  z : α
deriving DecidableEq, Repr

/-- The operator `Eigen::Vector3d::operator-`, componentwise. -/
def Vector3d.sub {α : Type} [Sub α] (a b : Vector3d α) : Vector3d α :=
  ⟨a.x - b.x, a.y - b.y, a.z - b.z⟩

/-- The operator `Eigen::Vector3d::operator+`, componentwise. -/
def Vector3d.add {α : Type} [Add α] (a b : Vector3d α) : Vector3d α :=
  ⟨a.x + b.x, a.y + b.y, a.z + b.z⟩

/-- Modelled from the spec: the class `Particle` is declared in a header that is
not part of `src/`.  The spec gives it a position, a velocity, a damage scalar
and two auxiliary fields; the source builds it as
`Particle(ipos, ivel, 0, 0, iDp)` and only ever touches `pos`. -/
structure Particle (α : Type) where
  pos : Vector3d α
  vel : Vector3d α
  aux0 : α
  aux1 : α
  Dp : α
deriving DecidableEq, Repr

/-- Modelled from the spec: `meshObjFormat` is declared in a header that is not
part of `src/`.  The source uses its members `vertices` (a vector of
`Eigen::Vector3d`) and `faces` (a vector of index vectors). -/
structure meshObjFormat (α : Type) where
  vertices : List (Vector3d α)
  faces : List (List Int)
deriving DecidableEq, Repr

/-- Modelled from the spec: `parametersSim` is declared in a header that is not
part of `src/`.  These are the four members `main.cpp` reads or writes. -/
structure parametersSim (α : Type) where
  dx : α
  vdbVoxelSize : α
  length : Vector3d α
  minCoordinate : Vector3d α
deriving DecidableEq, Repr

/-- One line of the particle file after `sin >> s0 >> s1 >> s2 >> s3` and `atof`:
the three coordinates and the damage value. -/
structure ParticleLine (α : Type) where
  s0 : α
  s1 : α
  s2 : α
  s3 : α
deriving DecidableEq, Repr

/-- The error taxonomy named by the specification (section 7). -/
inductive SpecError where
  | EmptyInputError
  | DegenerateMeshError
  | EmptyGridError
deriving DecidableEq, Repr

/-- How a call ends.  `returned s`: the function returns with the caller's
objects in state `s`.  `reported e`: an error is reported to the caller.
`undefinedRead i`: the run ends in the read `v[i]` on a `std::vector` with
`i ≥ v.size()`, which `operator[]` does not check, when that read faults. -/
inductive Outcome (σ : Type) where
  | returned (s : σ)
  | reported (e : SpecError)
  | undefinedRead (i : Nat)
deriving DecidableEq, Repr

/-- The caller's objects that `preprocessing` writes through its pointer
arguments. -/
structure PreState (α : Type) where
  parameters : parametersSim α
  particleVec : List (Particle α)
  objectMesh : meshObjFormat α
deriving DecidableEq, Repr

/-! ## `preprocessing` (main.cpp, lines 175-220) -/

section Normalizer

/-! The definitions of this section use only the operations the source uses on
`double`: `+`, `-`, `*`, `<` and the constants `0`, `10`, `20`.  They are stated
for any type with these operations, so that they can be read over an ordered
field (exact arithmetic) and over `Double` (binary64 rounding) alike. -/

variable {α : Type}

/-- The function `std::min(a, b)`, which is `(b < a) ? b : a`. -/
def stdMin [LT α] [∀ a b : α, Decidable (a < b)] (a b : α) : α := if b < a then b else a

/-- The function `std::max(a, b)`, which is `(a < b) ? b : a`. -/
def stdMax [LT α] [∀ a b : α, Decidable (a < b)] (a b : α) : α := if a < b then b else a

/-- Lines 183-191: every line of the particle file appends one particle with
zero velocity to `*particleVec`. -/
def readParticles [Zero α] (crackFile : List (ParticleLine α)) (particleVec : List (Particle α)) :
    List (Particle α) :=
  crackFile.foldl
    (fun pv l => pv ++ [Particle.mk ⟨l.s0, l.s1, l.s2⟩ ⟨0, 0, 0⟩ 0 0 l.s3])
    particleVec

/-- The six running extrema of lines 192-202. -/
structure Bounds (α : Type) where
  xmin : α
  xmax : α
  ymin : α
  ymax : α
  zmin : α
  zmax : α
deriving DecidableEq, Repr

/-- Line 192: all six extrema start at the coordinates of `(*particleVec)[0]`. -/
def initBounds (p0 : Particle α) : Bounds α :=
  ⟨p0.pos.x, p0.pos.x, p0.pos.y, p0.pos.y, p0.pos.z, p0.pos.z⟩

/-- Lines 195-201: the body of the extrema loop for one particle. -/
def boundsStep [LT α] [∀ a b : α, Decidable (a < b)] (b : Bounds α) (p : Particle α) : Bounds α :=
  { xmin := stdMin b.xmin p.pos.x
    xmax := stdMax b.xmax p.pos.x
    ymin := stdMin b.ymin p.pos.y
    ymax := stdMax b.ymax p.pos.y
    zmin := stdMin b.zmin p.pos.z
    zmax := stdMax b.zmax p.pos.z }

/-- Lines 193-202: the extrema loop over the whole vector. -/
def boundsLoop [LT α] [∀ a b : α, Decidable (a < b)] (b : Bounds α) (pv : List (Particle α)) : Bounds α :=
  pv.foldl boundsStep b

/-- Line 203: `minCoordinate` from the extrema and `dx`. -/
def minCoordinateOf [Sub α] [Mul α] [OfNat α 10] (b : Bounds α) (dx : α) : Vector3d α :=
  ⟨b.xmin - 10 * dx, b.ymin - 10 * dx, b.zmin - 10 * dx⟩

/-- Line 207: `length` from the extrema and `dx`. -/
def lengthOf [Add α] [Sub α] [Mul α] [OfNat α 20] (b : Bounds α) (dx : α) : Vector3d α :=
  ⟨b.xmax - b.xmin + 20 * dx, b.ymax - b.ymin + 20 * dx, b.zmax - b.zmin + 20 * dx⟩

/-- Lines 204-206: the shift of one particle. -/
def shiftParticle [Sub α] (minCoordinate : Vector3d α) (p : Particle α) : Particle α :=
  { p with pos := p.pos.sub minCoordinate }

/-- Line 192: the read `(*particleVec)[0]`.  On a non-empty vector it is the
first element.  On an empty vector `operator[]` reads past the end without a
check, which is undefined behaviour: `stale` is what that read does, `none` when
it faults and `some q` when it yields the bytes found there as the particle
`q` (as on a vector that has been emptied and keeps its storage). -/
def elementZero (stale : Option (Particle α)) (pv : List (Particle α)) : Option (Particle α) :=
  match pv with
  | [] => stale
  | p0 :: _ => some p0

/-- The function `preprocessing`.  `crackFile` is the content of the file at
`crackFilePath`, `cutObjectFile` is what `readObj(cutObjectFilePath)` returns;
`parameters`, `particleVec`, `objectMesh` are the caller's objects on entry;
`stale` is what an unchecked read past the end of the vector does (see
`elementZero`).  There is no test for an empty vector before line 192 reads
element 0, and no statement that reports an error. -/
def preprocessing [Zero α] [Add α] [Sub α] [Mul α] [OfNat α 10] [OfNat α 20] [LT α]
    [∀ a b : α, Decidable (a < b)] (stale : Option (Particle α))
    (crackFile : List (ParticleLine α)) (cutObjectFile : meshObjFormat α)
    (parameters : parametersSim α) (particleVec : List (Particle α))
    (objectMesh : meshObjFormat α) : Outcome (PreState α) :=
  match elementZero stale (readParticles crackFile particleVec) with
  | none => Outcome.undefinedRead 0
  | some p0 =>
    let b := boundsLoop (initBounds p0) (readParticles crackFile particleVec)
    let minCoordinate := minCoordinateOf b parameters.dx
    let length := lengthOf b parameters.dx
    Outcome.returned
      { parameters := { parameters with length := length, minCoordinate := minCoordinate }
        particleVec := (readParticles crackFile particleVec).map (shiftParticle minCoordinate)
        objectMesh :=
          { objectMesh with
            vertices := cutObjectFile.vertices.map (fun v => Vector3d.sub v minCoordinate)
            faces := cutObjectFile.faces } }

/-! ## `postprocessing` (main.cpp, lines 224-254) -/

/-- The tuple `std::tuple<bool, meshObjFormat, meshObjFormat,
std::vector<meshObjFormat>>` returned by `extractCrackSurface`. -/
abbrev CrackSurface (α : Type) : Type :=
  Bool × meshObjFormat α × meshObjFormat α × List (meshObjFormat α)

/-- The caller's objects reachable through the pointer arguments of
`postprocessing`. -/
structure PostState (α : Type) where
  parameters : parametersSim α
  crackSurface : CrackSurface α
  objectMesh : meshObjFormat α
deriving DecidableEq, Repr

/-- One of the four vertex loops of `postprocessing`: every vertex of the mesh
gets `minCoordinate` added, the faces are not touched. -/
def unshiftMesh [Add α] (minCoordinate : Vector3d α) (m : meshObjFormat α) : meshObjFormat α :=
  { m with vertices := m.vertices.map (fun v => v.add minCoordinate) }

/-- The function `postprocessing`. -/
def postprocessing [Add α] (parameters : parametersSim α) (crackSurface : CrackSurface α)
    (objectMesh : meshObjFormat α) : PostState α :=
  { parameters := parameters
    crackSurface :=
      (crackSurface.1,
       unshiftMesh parameters.minCoordinate crackSurface.2.1,
       unshiftMesh parameters.minCoordinate crackSurface.2.2.1,
       crackSurface.2.2.2.map (unshiftMesh parameters.minCoordinate))
    objectMesh := unshiftMesh parameters.minCoordinate objectMesh }

/-- The caller's objects after `postprocessing` has run on what `preprocessing`
left: the particles (which `postprocessing` has no access to), and the state
`postprocessing` leaves. -/
structure RunState (α : Type) where
  particleVec : List (Particle α)
  post : PostState α
deriving DecidableEq, Repr

/-- Running `postprocessing` after `preprocessing`, with `crackSurface` the tuple
handed to `postprocessing`. -/
def normalizeDenormalize [Zero α] [Add α] [Sub α] [Mul α] [OfNat α 10] [OfNat α 20] [LT α]
    [∀ a b : α, Decidable (a < b)] (stale : Option (Particle α))
    (crackFile : List (ParticleLine α)) (cutObjectFile : meshObjFormat α)
    (parameters : parametersSim α) (particleVec : List (Particle α))
    (objectMesh : meshObjFormat α) (crackSurface : CrackSurface α) : Outcome (RunState α) :=
  match preprocessing stale crackFile cutObjectFile parameters particleVec objectMesh with
  | Outcome.returned s =>
    Outcome.returned
      { particleVec := s.particleVec
        post := postprocessing s.parameters crackSurface s.objectMesh }
  | Outcome.reported e => Outcome.reported e
  | Outcome.undefinedRead i => Outcome.undefinedRead i

/-! ### The words of the specification for the extrema -/

/-- The value `m` is the least of the values `f p`, `p` ranging over `ps`: it is
attained by a particle of `ps` and is below every one of them. -/
def IsMinOver [LE α] (f : Particle α → α) (ps : List (Particle α)) (m : α) : Prop :=
  (∃ p ∈ ps, f p = m) ∧ ∀ p ∈ ps, m ≤ f p

/-- The value `m` is the greatest of the values `f p`, `p` ranging over `ps`. -/
def IsMaxOver [LE α] (f : Particle α → α) (ps : List (Particle α)) (m : α) : Prop :=
  (∃ p ∈ ps, f p = m) ∧ ∀ p ∈ ps, f p ≤ m

/-- The vector `lo` is the componentwise minimum of the positions of `ps`. -/
def IsComponentwiseMin [LE α] (ps : List (Particle α)) (lo : Vector3d α) : Prop :=
  IsMinOver (fun p => p.pos.x) ps lo.x ∧ IsMinOver (fun p => p.pos.y) ps lo.y ∧
    IsMinOver (fun p => p.pos.z) ps lo.z

/-- The vector `hi` is the componentwise maximum of the positions of `ps`. -/
def IsComponentwiseMax [LE α] (ps : List (Particle α)) (hi : Vector3d α) : Prop :=
  IsMaxOver (fun p => p.pos.x) ps hi.x ∧ IsMaxOver (fun p => p.pos.y) ps hi.y ∧
    IsMaxOver (fun p => p.pos.z) ps hi.z

end Normalizer

/-! ## The type `double` -/

/-- The finite values of the type `double` of the source (IEEE-754 binary64):
the value `mant * 2 ^ exp`.  Several pairs stand for one value; the order
compares values.  The exponent range (overflow to infinity, subnormal numbers)
and NaN are not represented. -/
structure Double where
  mant : Int
  exp : Int
deriving DecidableEq, Repr

namespace Double

/-- The number of binary digits of `n`, counted in at most `fuel` halvings;
`bitLength n n` is the number of binary digits of `n`. -/
def bitLength : Nat → Nat → Nat
  | 0, _ => 0
  | fuel + 1, n => if n = 0 then 0 else bitLength fuel (n / 2) + 1

/-- Rounding of the exact value `m * 2 ^ e` to 53 significant binary digits, to
the nearest value and to the even one of two nearest: the rounding binary64
applies to the exact result of `+`, `-` and `*`. -/
def round (m : Int) (e : Int) : Double :=
  let n := m.natAbs
  let bits := bitLength n n
  if bits ≤ 53 then ⟨m, e⟩
  else
    let shift := bits - 53
    let q := n / 2 ^ shift
    let r := n % 2 ^ shift
    let half := 2 ^ (shift - 1)
    let q1 := if half < r ∨ (r = half ∧ q % 2 = 1) then q + 1 else q
    ⟨if m < 0 then -(q1 : Int) else (q1 : Int), e + (shift : Int)⟩

/-- The integer `k` with `a = k * 2 ^ e0`, for an exponent `e0 ≤ a.exp`. -/
def scaled (a : Double) (e0 : Int) : Int := a.mant * 2 ^ (a.exp - e0).toNat

/-- The operator `+` on `double`: the exact sum, rounded. -/
def add (a b : Double) : Double :=
  round (a.scaled (min a.exp b.exp) + b.scaled (min a.exp b.exp)) (min a.exp b.exp)

/-- The operator `-` on `double`: the exact difference, rounded. -/
def sub (a b : Double) : Double :=
  round (a.scaled (min a.exp b.exp) - b.scaled (min a.exp b.exp)) (min a.exp b.exp)

/-- The operator `*` on `double`: the exact product, rounded. -/
def mul (a b : Double) : Double := round (a.mant * b.mant) (a.exp + b.exp)

/-- The operator `<` on `double`: the order of the values. -/
def lt (a b : Double) : Prop := a.scaled (min a.exp b.exp) < b.scaled (min a.exp b.exp)

/-- The operator `<=` on `double`: the order of the values. -/
def le (a b : Double) : Prop := a.scaled (min a.exp b.exp) ≤ b.scaled (min a.exp b.exp)

instance instAdd : Add Double := ⟨add⟩

instance instSub : Sub Double := ⟨sub⟩

instance instMul : Mul Double := ⟨mul⟩

instance instLT : LT Double := ⟨lt⟩

instance instLE : LE Double := ⟨le⟩

instance decLt (a b : Double) : Decidable (a < b) :=
  Int.decLt (a.scaled (min a.exp b.exp)) (b.scaled (min a.exp b.exp))

instance decLe (a b : Double) : Decidable (a ≤ b) :=
  Int.decLe (a.scaled (min a.exp b.exp)) (b.scaled (min a.exp b.exp))

/-- An integer constant of the source converted to `double`. -/
instance instOfNat (n : Nat) : OfNat Double n := ⟨round (n : Int) 0⟩

instance instZero : Zero Double := ⟨⟨0, 0⟩⟩

end Double

/-! ## Sparse grids: the offset loop and the boolean stage of `main` -/

/-- The type `openvdb::Coord`: an integer voxel coordinate `(i, j, k)`. -/
abbrev Coord : Type := Int × Int × Int

/-- The enumeration `openvdb::GridClass`. -/
inductive GridClass where
  | GRID_UNKNOWN
  | GRID_LEVEL_SET
  | GRID_FOG_VOLUME
  | GRID_STAGGERED
deriving DecidableEq, Repr

/-- Modelled from the spec: `openvdb::FloatGrid` is library code that is not part
of `src/`.  The spec's sparse distance-field grid is a mapping from an integer
voxel coordinate to a value, background-valued outside the active set, with a
class tag: `voxels v = some d` for an active voxel of value `d`, `none` for an
inactive one. -/
structure FloatGrid (α : Type) where
  background : α
  voxels : Coord → Option α
  gridClass : GridClass

/-- The value read at a voxel: its own when it is active, the background value
otherwise. -/
def FloatGrid.read {α : Type} (g : FloatGrid α) (v : Coord) : α :=
  (g.voxels v).getD g.background

/-- The call `grid->setGridClass(c)`. -/
def FloatGrid.setGridClass {α : Type} (g : FloatGrid α) (c : GridClass) : FloatGrid α :=
  { g with gridClass := c }

/-- The call `grid->deepCopy()`: a new grid with the same content. -/
def FloatGrid.deepCopy {α : Type} (g : FloatGrid α) : FloatGrid α :=
  { background := g.background, voxels := g.voxels, gridClass := g.gridClass }

section Grids

variable {α : Type} [LinearOrderedField α]

/-- Lines 351-355 (and 449-453): the loop over `beginValueOn()`.  For every
active voxel, `dist = iter.getValue()`,
`value = dist - std::sqrt(3 * std::pow(vdbVoxelSize, 2))`, `iter.setValue(value)`.
The square root `std::sqrt` is the parameter `sqrt`. -/
def offsetLoop (sqrt : α → α) (vdbVoxelSize : α) (g : FloatGrid α) : FloatGrid α :=
  { g with voxels := fun v => (g.voxels v).map (fun dist => dist - sqrt (3 * vdbVoxelSize ^ 2)) }

/-- Lines 351-356: the offset loop followed by
`setGridClass(openvdb::GRID_LEVEL_SET)`. -/
def offsetCorrector (sqrt : α → α) (vdbVoxelSize : α) (g : FloatGrid α) : FloatGrid α :=
  (offsetLoop sqrt vdbVoxelSize g).setGridClass GridClass.GRID_LEVEL_SET

/-- Modelled from the spec: `openvdb::tools::csgDifference(A, B)` is library code
that is not part of `src/`; it leaves its result in `A`.  Specification 4.4:
for the union of the active voxels of `A` and `B`,
`result(v) = max(A(v), -B(v))`, an inactive voxel being read as the background
value. -/
def csgDifference (A B : FloatGrid α) : FloatGrid α :=
  { A with
    voxels := fun v =>
      if (A.voxels v).isSome || (B.voxels v).isSome then
        some (max (A.read v) (-(B.read v)))
      else none }

/-- The grids alive after lines 391-395 (and 489-493) of `main`. -/
structure BooleanStage (α : Type) where
  crackLevelSetGrid : FloatGrid α
  objectLevelSetGrid : FloatGrid α
  csgSubtractedObjGrid : FloatGrid α

/-- Lines 391-395: both grids are deep-copied, `csgDifference` is called with the
copy of the object grid first and the copy of the crack grid second, and the
first copy is the result. -/
def booleanStage (crackLevelSetGrid objectLevelSetGrid : FloatGrid α) : BooleanStage α :=
  let copyOfCrackGrid := crackLevelSetGrid.deepCopy
  let copyOfObjGrid := objectLevelSetGrid.deepCopy
  { crackLevelSetGrid := crackLevelSetGrid
    objectLevelSetGrid := objectLevelSetGrid
    csgSubtractedObjGrid := csgDifference copyOfObjGrid copyOfCrackGrid }

/-- A crack grid with two active voxels, of distance `1` and `2`, background `3`. -/
def exampleCrackGrid : FloatGrid α :=
  { background := 3
    voxels := fun v => if v = (0, 0, 0) then some 1 else if v = (1, 0, 0) then some 2 else none
    gridClass := GridClass.GRID_UNKNOWN }

end Grids

/-! ## `getSurfaceMeshFromVdbGrid` (main.cpp, lines 84-128): the mesh handed to decimation -/

/-- The type `openvdb::Vec3I`: a triangle of the contouring, three point indices. -/
structure Vec3I where
  x : Nat
  y : Nat
  z : Nat
deriving DecidableEq, Repr

/-- The type `openvdb::Vec4I`: a quad of the contouring, four point indices
(`Index32`), read with `x()`, `y()`, `z()`, `w()`. -/
structure Vec4I where
  x : Nat
  y : Nat
  z : Nat
  w : Nat
deriving DecidableEq, Repr

/-- The type `trimesh::TriMesh::Face`: three vertex indices `f[0]`, `f[1]`, `f[2]`
of type `int`.  Point indices are positions in the point list and convert to
`int` unchanged. -/
structure Face where
  v0 : Int
  v1 : Int
  v2 : Int
deriving DecidableEq, Repr

/-- The type `openvdb::tools::PolygonPool`: the triangles and the quads of one
pool. -/
structure PolygonPool where
  triangles : List Vec3I
  quads : List Vec4I
deriving DecidableEq, Repr

/-- Lines 115-118: the face `f0` built from the quad `p`. -/
def quadF0 (p : Vec4I) : Face := ⟨p.z, p.y, p.x⟩

/-- Lines 119-122: the face `f1` built from the quad `p`. -/
def quadF1 (p : Vec4I) : Face := ⟨p.w, p.z, p.x⟩

/-- Lines 113-125: the body of the quad loop, `push_back(f0); push_back(f1)`. -/
def pushQuad (faces : List Face) (p : Vec4I) : List Face :=
  (faces ++ [quadF0 p]) ++ [quadF1 p]

/-- Lines 103-128: the body of the pool loop.  The triangle loop (lines 106-109)
takes the address of each triangle and does nothing with it; the quad loop
appends two faces per quad. -/
def poolLoop (faces : List Face) (pool : PolygonPool) : List Face :=
  let faces1 := pool.triangles.foldl (fun fs _ => fs) faces
  pool.quads.foldl pushQuad faces1

/-- Lines 103-128: `pMesh->faces` after the loop over all pools. -/
def buildFaces (polys : List PolygonPool) : List Face :=
  polys.foldl poolLoop []

/-- Lines 95-101: `pMesh->vertices` after the loop over the point list; each
point `v` is pushed as `trimesh::vec3(v[0], v[1], v[2])`. -/
def buildVertices {α : Type} (verts : List (Vector3d α)) : List (Vector3d α) :=
  verts.foldl (fun vs v => vs ++ [Vector3d.mk v.x v.y v.z]) []

/-- The vertex indices of a face, in order. -/
def Face.toList (f : Face) : List Int := [f.v0, f.v1, f.v2]

/-- The directed edges of a triangle, following its vertex order. -/
def Face.edges (f : Face) : List (Int × Int) := [(f.v0, f.v1), (f.v1, f.v2), (f.v2, f.v0)]

/-- The corners of a quad in its own order `x, y, z, w`. -/
def Vec4I.corners (p : Vec4I) : List Int := [p.x, p.y, p.z, p.w]

/-- The directed boundary edges of a quad, following `x → y → z → w → x`. -/
def Vec4I.edges (p : Vec4I) : List (Int × Int) :=
  [(p.x, p.y), (p.y, p.z), (p.z, p.w), (p.w, p.x)]

/-- Lines 132-139: the matrix `V` handed to `igl::decimate`, row `i` holding the
three coordinates of `pMesh->vertices[i]`. -/
def matrixV {α : Type} (vertices : List (Vector3d α)) : List (Vector3d α) :=
  vertices.map (fun v => Vector3d.mk v.x v.y v.z)

/-- Lines 133-145: the matrix `F` handed to `igl::decimate`, row `i` holding the
three indices of `pMesh->faces[i]`. -/
def matrixF (faces : List Face) : List Face :=
  faces.map (fun f => Face.mk f.v0 f.v1 f.v2)

/-- The total number of quads over all pools. -/
def totalQuads (polys : List PolygonPool) : Nat :=
  (polys.map (fun pool => pool.quads.length)).sum

/-- The pools with their native triangles removed. -/
def dropTriangles (polys : List PolygonPool) : List PolygonPool :=
  polys.map (fun pool => { pool with triangles := [] })

/-- A pool list with two pools, three native triangles and three quads. -/
def examplePolys : List PolygonPool :=
  [⟨[⟨0, 1, 2⟩, ⟨2, 3, 4⟩], [⟨0, 1, 2, 3⟩]⟩, ⟨[⟨5, 6, 7⟩], [⟨4, 5, 6, 7⟩, ⟨1, 2, 6, 5⟩]⟩]

/-! ## The order of the calls in `main` (main.cpp, lines 263-516) -/

/-- The calls `main` makes, by the name of the function called; `offsetLoop`
stands for the loop of lines 351-355 and 449-453. -/
inductive Call where
  | preprocessing
  | extractCrackSurface
  | postprocessing
  | writeObjFile
  | cutObject_MCUT
  | createLinearTransform
  | triangulateGenericMesh
  | meshToUnsignedDistanceField
  | offsetLoop
  | setGridClass
  | meshToLevelSet
  | deepCopy
  | csgDifference
  | segmentSDF
  | getSurfaceMeshFromVdbGrid
deriving DecidableEq, Repr

/-- Line 300: `int cuttingMethod = 0;`. -/
def cuttingMethod : Int := 0

/-- Lines 278-293: the calls before the `switch`.  `nFragments` is the size of
the fragment list `extractCrackSurface` returned. -/
def callsBeforeSwitch (nFragments : Nat) : List Call :=
  [Call.preprocessing, Call.extractCrackSurface, Call.postprocessing] ++
    ([Call.writeObjFile, Call.writeObjFile] ++
      (List.replicate nFragments Call.writeObjFile ++ [Call.writeObjFile]))

/-- Lines 304-315, `case 0`: `nFragmentsFinal` is the size of `fragmentsFinal`
after `cutObject_MCUT`. -/
def callsCase0 (nFragmentsFinal : Nat) : List Call :=
  Call.cutObject_MCUT :: List.replicate nFragmentsFinal Call.writeObjFile

/-- Lines 317-413, `case 1`, and lines 415-509, `case 2`, which make the same
calls in the same order: `nGrids` is the size of the list `segmentSDF` filled. -/
def callsCaseVdb (nGrids : Nat) : List Call :=
  [Call.createLinearTransform, Call.triangulateGenericMesh, Call.meshToUnsignedDistanceField,
    Call.offsetLoop, Call.setGridClass, Call.triangulateGenericMesh, Call.meshToLevelSet,
    Call.setGridClass, Call.deepCopy, Call.deepCopy, Call.csgDifference, Call.segmentSDF] ++
    (List.replicate nGrids [Call.getSurfaceMeshFromVdbGrid, Call.writeObjFile]).flatten

/-- Lines 301-511: the `switch`; a value other than 0, 1, 2 matches no case. -/
def callsSwitch (method : Int) (nFragmentsFinal nGrids : Nat) : List Call :=
  if method = 0 then callsCase0 nFragmentsFinal
  else if method = 1 then callsCaseVdb nGrids
  else if method = 2 then callsCaseVdb nGrids
  else []

/-- The calls of `main` for a given value of the local `cuttingMethod`. -/
def mainCalls (method : Int) (nFragments nFragmentsFinal nGrids : Nat) : List Call :=
  callsBeforeSwitch nFragments ++ callsSwitch method nFragmentsFinal nGrids

/-- The calls of `main`, in order. -/
def main (nFragments nFragmentsFinal nGrids : Nat) : List Call :=
  mainCalls cuttingMethod nFragments nFragmentsFinal nGrids

/-- A cutting, rasterizing, CSG, segmentation or surface-extraction step. -/
def Call.isGeometricStep : Call → Bool
  | Call.cutObject_MCUT => true
  | Call.meshToUnsignedDistanceField => true
  | Call.meshToLevelSet => true
  | Call.csgDifference => true
  | Call.segmentSDF => true
  | Call.getSurfaceMeshFromVdbGrid => true
  | _ => false

/-- The words of the specification: the run rasterizes (crack and object),
subtracts, segments and extracts. -/
def RunsVdbStages (tr : List Call) : Prop :=
  Call.meshToUnsignedDistanceField ∈ tr ∧ Call.meshToLevelSet ∈ tr ∧ Call.csgDifference ∈ tr ∧
    Call.segmentSDF ∈ tr ∧ Call.getSurfaceMeshFromVdbGrid ∈ tr

/-- The words of the specification: the denormalizer is called after all
geometric processing, no geometric step follows a call of `postprocessing`. -/
def DenormalizerLast (tr : List Call) : Prop :=
  ∀ before after : List Call, tr = before ++ Call.postprocessing :: after →
    ∀ c ∈ after, c.isGeometricStep = false

/-- What the source does: no geometric step precedes a call of
`postprocessing`. -/
def DenormalizerFirst (tr : List Call) : Prop :=
  ∀ before after : List Call, tr = before ++ Call.postprocessing :: after →
    ∀ c ∈ before, c.isGeometricStep = false

/-! ### Concrete inputs used to evaluate the definitions -/

/-- A particle file with two lines. -/
def exampleCrackFile : List (ParticleLine ℚ) := [⟨0, 0, 0, 1⟩, ⟨1, -2, 3, 1⟩]

/-- A particle file with one line, the particle at the origin. -/
def originCrackFile : List (ParticleLine ℚ) := [⟨0, 0, 0, 1⟩]

/-- A mesh file with one triangle. -/
def exampleCutObject : meshObjFormat ℚ :=
  ⟨[⟨1, 1, 1⟩, ⟨2, 1, 1⟩, ⟨1, 3, 1⟩], [[0, 1, 2]]⟩

/-- The empty mesh object `main` declares before the call. -/
def emptyMesh : meshObjFormat ℚ := ⟨[], []⟩

/-- What an unchecked read past the end may yield: a particle at `(3, 2, 1)`. -/
def staleParticle : Particle ℚ := ⟨⟨3, 2, 1⟩, ⟨0, 0, 0⟩, 0, 0, 1⟩

/-- The parameters `main` sets: `dx = 0.002` and `vdbVoxelSize = 0.0002`, as the
binary64 values nearest to these decimals (`0x1.0624dd2f1a9fcp-9` and
`0x1.a36e2eb1c432dp-13`). -/
def mainParametersDouble : parametersSim Double :=
  ⟨⟨1152921504606847, -59⟩, ⟨7378697629483821, -65⟩, ⟨0, 0, 0⟩, ⟨0, 0, 0⟩⟩

/-- A particle file with the one line `-1.998 0 0 1`; the binary64 value nearest
to `-1.998` is `-0x1.ff7ced916872bp+0`. -/
def nearCrackFileDouble : List (ParticleLine Double) :=
  [⟨⟨-8998192055486251, -52⟩, 0, 0, 1⟩]

/-- Parameters with `dx = 0.5`. -/
def halfParametersDouble : parametersSim Double :=
  ⟨⟨1, -1⟩, ⟨1, -1⟩, ⟨0, 0, 0⟩, ⟨0, 0, 0⟩⟩

/-- A particle file with the one line `1e17 0 0 1`. -/
def farCrackFileDouble : List (ParticleLine Double) :=
  [⟨⟨100000000000000000, 0⟩, 0, 0, 1⟩]

/-- An empty mesh over `double`. -/
def emptyMeshDouble : meshObjFormat Double := ⟨[], []⟩

/-- Parameters with `dx = 1`. -/
def exampleParameters : parametersSim ℚ := ⟨1, 1, ⟨0, 0, 0⟩, ⟨0, 0, 0⟩⟩

/-- A crack-surface tuple with one vertex in each surface and one fragment. -/
def exampleCrackSurface : CrackSurface ℚ :=
  (true, ⟨[⟨10, 12, 10⟩], [[0, 0, 0]]⟩, ⟨[⟨11, 10, 13⟩], []⟩, [⟨[⟨10, 10, 10⟩], [[0]]⟩])

/-! # Theorems -/

section NormalizerLemmas

variable {α : Type} [LinearOrderedField α]

theorem stdMin_eq_min (a b : α) : stdMin a b = min a b := by
  unfold stdMin
  rcases lt_or_le b a with h | h
  · rw [if_pos h, min_eq_right h.le]
  · rw [if_neg (not_lt.mpr h), min_eq_left h]

theorem stdMax_eq_max (a b : α) : stdMax a b = max a b := by
  unfold stdMax
  rcases lt_or_le a b with h | h
  · rw [if_pos h, max_eq_right h.le]
  · rw [if_neg (not_lt.mpr h), max_eq_left h]

theorem readParticles_eq (crackFile : List (ParticleLine α)) (particleVec : List (Particle α)) :
    readParticles crackFile particleVec =
      particleVec ++
        crackFile.map (fun l => Particle.mk ⟨l.s0, l.s1, l.s2⟩ ⟨0, 0, 0⟩ 0 0 l.s3) := by
  unfold readParticles
  induction crackFile generalizing particleVec with
  | nil => simp
  | cons l ls ih => simp [List.foldl_cons, ih]

/-- A running minimum stays below its start, below every visited value, and is
the start or one of the visited values. -/
theorem foldl_stdMin_spec (f : Particle α → α) (l : List (Particle α)) (m : α) :
    l.foldl (fun a p => stdMin a (f p)) m ≤ m ∧
      (∀ p ∈ l, l.foldl (fun a p => stdMin a (f p)) m ≤ f p) ∧
      (l.foldl (fun a p => stdMin a (f p)) m = m ∨
        ∃ p ∈ l, f p = l.foldl (fun a p => stdMin a (f p)) m) := by
  induction l generalizing m with
  | nil => simp
  | cons q l ih =>
    obtain ⟨h1, h2, h3⟩ := ih (stdMin m (f q))
    have hl : stdMin m (f q) ≤ m := by rw [stdMin_eq_min]; exact min_le_left _ _
    have hr : stdMin m (f q) ≤ f q := by rw [stdMin_eq_min]; exact min_le_right _ _
    simp only [List.foldl_cons]
    refine ⟨h1.trans hl, ?_, ?_⟩
    · intro p hp
      rcases List.mem_cons.mp hp with rfl | hp
      · exact h1.trans hr
      · exact h2 p hp
    · rcases h3 with h3 | ⟨p, hp, hpe⟩
      · rcases min_choice m (f q) with hc | hc
        · left; rw [h3, stdMin_eq_min, hc]
        · right; exact ⟨q, List.mem_cons_self _ _, by rw [h3, stdMin_eq_min, hc]⟩
      · right; exact ⟨p, List.mem_cons_of_mem _ hp, hpe⟩

/-- A running maximum stays above its start, above every visited value, and is
the start or one of the visited values. -/
theorem foldl_stdMax_spec (f : Particle α → α) (l : List (Particle α)) (m : α) :
    m ≤ l.foldl (fun a p => stdMax a (f p)) m ∧
      (∀ p ∈ l, f p ≤ l.foldl (fun a p => stdMax a (f p)) m) ∧
      (l.foldl (fun a p => stdMax a (f p)) m = m ∨
        ∃ p ∈ l, f p = l.foldl (fun a p => stdMax a (f p)) m) := by
  induction l generalizing m with
  | nil => simp
  | cons q l ih =>
    obtain ⟨h1, h2, h3⟩ := ih (stdMax m (f q))
    have hl : m ≤ stdMax m (f q) := by rw [stdMax_eq_max]; exact le_max_left _ _
    have hr : f q ≤ stdMax m (f q) := by rw [stdMax_eq_max]; exact le_max_right _ _
    simp only [List.foldl_cons]
    refine ⟨hl.trans h1, ?_, ?_⟩
    · intro p hp
      rcases List.mem_cons.mp hp with rfl | hp
      · exact hr.trans h1
      · exact h2 p hp
    · rcases h3 with h3 | ⟨p, hp, hpe⟩
      · rcases max_choice m (f q) with hc | hc
        · left; rw [h3, stdMax_eq_max, hc]
        · right; exact ⟨q, List.mem_cons_self _ _, by rw [h3, stdMax_eq_max, hc]⟩
      · right; exact ⟨p, List.mem_cons_of_mem _ hp, hpe⟩

/-- Started at the value of the first element, the running minimum over the
whole list is the least value. -/
theorem foldl_stdMin_isMinOver (f : Particle α → α) (p0 : Particle α)
    (rest : List (Particle α)) :
    IsMinOver f (p0 :: rest) ((p0 :: rest).foldl (fun a p => stdMin a (f p)) (f p0)) := by
  obtain ⟨_, h2, h3⟩ := foldl_stdMin_spec f (p0 :: rest) (f p0)
  refine ⟨?_, h2⟩
  rcases h3 with h3 | h3
  · exact ⟨p0, List.mem_cons_self _ _, h3.symm⟩
  · exact h3

theorem foldl_stdMax_isMaxOver (f : Particle α → α) (p0 : Particle α)
    (rest : List (Particle α)) :
    IsMaxOver f (p0 :: rest) ((p0 :: rest).foldl (fun a p => stdMax a (f p)) (f p0)) := by
  obtain ⟨_, h2, h3⟩ := foldl_stdMax_spec f (p0 :: rest) (f p0)
  refine ⟨?_, h2⟩
  rcases h3 with h3 | h3
  · exact ⟨p0, List.mem_cons_self _ _, h3.symm⟩
  · exact h3

/-- The six extrema of the loop are six independent running extrema. -/
theorem boundsLoop_proj (b : Bounds α) (pv : List (Particle α)) :
    boundsLoop b pv =
      { xmin := pv.foldl (fun a p => stdMin a p.pos.x) b.xmin
        xmax := pv.foldl (fun a p => stdMax a p.pos.x) b.xmax
        ymin := pv.foldl (fun a p => stdMin a p.pos.y) b.ymin
        ymax := pv.foldl (fun a p => stdMax a p.pos.y) b.ymax
        zmin := pv.foldl (fun a p => stdMin a p.pos.z) b.zmin
        zmax := pv.foldl (fun a p => stdMax a p.pos.z) b.zmax } := by
  unfold boundsLoop
  induction pv generalizing b with
  | nil => rfl
  | cons q l ih => simp only [List.foldl_cons, ih, boundsStep]

/-- What the extrema loop of `preprocessing` computes on a non-empty vector. -/
theorem boundsLoop_spec (p0 : Particle α) (rest : List (Particle α)) :
    IsComponentwiseMin (p0 :: rest)
        ⟨(boundsLoop (initBounds p0) (p0 :: rest)).xmin,
         (boundsLoop (initBounds p0) (p0 :: rest)).ymin,
         (boundsLoop (initBounds p0) (p0 :: rest)).zmin⟩ ∧
      IsComponentwiseMax (p0 :: rest)
        ⟨(boundsLoop (initBounds p0) (p0 :: rest)).xmax,
         (boundsLoop (initBounds p0) (p0 :: rest)).ymax,
         (boundsLoop (initBounds p0) (p0 :: rest)).zmax⟩ := by
  rw [boundsLoop_proj]
  exact ⟨⟨foldl_stdMin_isMinOver (fun p => p.pos.x) p0 rest,
      foldl_stdMin_isMinOver (fun p => p.pos.y) p0 rest,
      foldl_stdMin_isMinOver (fun p => p.pos.z) p0 rest⟩,
    ⟨foldl_stdMax_isMaxOver (fun p => p.pos.x) p0 rest,
      foldl_stdMax_isMaxOver (fun p => p.pos.y) p0 rest,
      foldl_stdMax_isMaxOver (fun p => p.pos.z) p0 rest⟩⟩

/-- The result of `preprocessing` when the vector is non-empty after reading. -/
theorem preprocessing_of_cons (stale : Option (Particle α))
    (crackFile : List (ParticleLine α))
    (cutObjectFile : meshObjFormat α) (parameters : parametersSim α)
    (particleVec : List (Particle α)) (objectMesh : meshObjFormat α)
    (p0 : Particle α) (rest : List (Particle α))
    (h : readParticles crackFile particleVec = p0 :: rest) :
    preprocessing stale crackFile cutObjectFile parameters particleVec objectMesh =
      Outcome.returned
        { parameters :=
            { parameters with
              length := lengthOf (boundsLoop (initBounds p0) (p0 :: rest)) parameters.dx
              minCoordinate :=
                minCoordinateOf (boundsLoop (initBounds p0) (p0 :: rest)) parameters.dx }
          particleVec :=
            (p0 :: rest).map
              (shiftParticle
                (minCoordinateOf (boundsLoop (initBounds p0) (p0 :: rest)) parameters.dx))
          objectMesh :=
            { vertices :=
                cutObjectFile.vertices.map (fun v =>
                  Vector3d.sub v
                    (minCoordinateOf (boundsLoop (initBounds p0) (p0 :: rest)) parameters.dx))
              faces := cutObjectFile.faces } } := by
  simp only [preprocessing, elementZero, h]

/-- The result of `postprocessing` after `preprocessing` when the vector is
non-empty after reading. -/
theorem normalizeDenormalize_of_cons (stale : Option (Particle α))
    (crackFile : List (ParticleLine α))
    (cutObjectFile : meshObjFormat α) (parameters : parametersSim α)
    (particleVec : List (Particle α)) (objectMesh : meshObjFormat α)
    (crackSurface : CrackSurface α) (p0 : Particle α) (rest : List (Particle α))
    (h : readParticles crackFile particleVec = p0 :: rest) :
    normalizeDenormalize stale crackFile cutObjectFile parameters particleVec objectMesh
        crackSurface =
      Outcome.returned
        { particleVec :=
            (p0 :: rest).map
              (shiftParticle
                (minCoordinateOf (boundsLoop (initBounds p0) (p0 :: rest)) parameters.dx))
          post :=
            postprocessing
              { parameters with
                length := lengthOf (boundsLoop (initBounds p0) (p0 :: rest)) parameters.dx
                minCoordinate :=
                  minCoordinateOf (boundsLoop (initBounds p0) (p0 :: rest)) parameters.dx }
              crackSurface
              { vertices :=
                  cutObjectFile.vertices.map (fun v =>
                    Vector3d.sub v
                      (minCoordinateOf (boundsLoop (initBounds p0) (p0 :: rest)) parameters.dx))
                faces := cutObjectFile.faces } } := by
  rw [normalizeDenormalize, preprocessing_of_cons _ _ _ _ _ _ p0 rest h]

theorem Vector3d.sub_add_cancel (v m : Vector3d α) : (v.sub m).add m = v := by
  cases v; cases m; simp [Vector3d.sub, Vector3d.add]

end NormalizerLemmas

section NormalizerClaims

variable {α : Type} [LinearOrderedField α]

/-- C2: for a non-empty particle list (the vector after the file has been read)
and every `dx`, `preprocessing` returns and stores
`minCoordinate = lo - 10*dx` and `length = (hi - lo) + 20*dx` on each axis, where
`lo` and `hi` are the componentwise minimum and maximum of the positions as read
(before the shift); `dx` itself is left as it was. -/
theorem preprocessing_minCoordinate_length (stale : Option (Particle α))
    (crackFile : List (ParticleLine α))
    (cutObjectFile : meshObjFormat α) (parameters : parametersSim α)
    (particleVec : List (Particle α)) (objectMesh : meshObjFormat α)
    (hne : readParticles crackFile particleVec ≠ []) :
    ∃ s lo hi,
      preprocessing stale crackFile cutObjectFile parameters particleVec objectMesh =
          Outcome.returned s ∧
        IsComponentwiseMin (readParticles crackFile particleVec) lo ∧
        IsComponentwiseMax (readParticles crackFile particleVec) hi ∧
        s.parameters.minCoordinate =
          ⟨lo.x - 10 * parameters.dx, lo.y - 10 * parameters.dx, lo.z - 10 * parameters.dx⟩ ∧
        s.parameters.length =
          ⟨hi.x - lo.x + 20 * parameters.dx, hi.y - lo.y + 20 * parameters.dx,
            hi.z - lo.z + 20 * parameters.dx⟩ ∧
        s.parameters.dx = parameters.dx := by
  cases h : readParticles crackFile particleVec with
  | nil => exact absurd h hne
  | cons p0 rest =>
    obtain ⟨hmin, hmax⟩ := boundsLoop_spec p0 rest
    exact ⟨_, _, _, preprocessing_of_cons _ _ _ _ _ _ p0 rest h, hmin, hmax, rfl, rfl, rfl⟩

/-- C2, evaluated on a two-line particle file with `dx = 1`. -/
theorem preprocessing_minCoordinate_length_witness :
    readParticles exampleCrackFile [] ≠ [] ∧
      ∃ s lo hi,
        preprocessing none exampleCrackFile exampleCutObject exampleParameters [] emptyMesh =
            Outcome.returned s ∧
          IsComponentwiseMin (readParticles exampleCrackFile []) lo ∧
          IsComponentwiseMax (readParticles exampleCrackFile []) hi ∧
          s.parameters.minCoordinate =
            ⟨lo.x - 10 * exampleParameters.dx, lo.y - 10 * exampleParameters.dx,
              lo.z - 10 * exampleParameters.dx⟩ ∧
          s.parameters.length =
            ⟨hi.x - lo.x + 20 * exampleParameters.dx, hi.y - lo.y + 20 * exampleParameters.dx,
              hi.z - lo.z + 20 * exampleParameters.dx⟩ ∧
          s.parameters.dx = exampleParameters.dx :=
  ⟨by simp [readParticles, exampleCrackFile],
    preprocessing_minCoordinate_length none exampleCrackFile exampleCutObject exampleParameters []
      emptyMesh (by simp [readParticles, exampleCrackFile])⟩

/-- C3: for a non-empty particle list and every object mesh, `preprocessing`
subtracts the one stored `minCoordinate` from every particle position (the other
fields of a particle are kept) and from every vertex of the mesh read from the
file; number and order of particles and of vertices are preserved, and the faces
are the file's faces. -/
theorem preprocessing_shifts_by_minCoordinate (stale : Option (Particle α))
    (crackFile : List (ParticleLine α))
    (cutObjectFile : meshObjFormat α) (parameters : parametersSim α)
    (particleVec : List (Particle α)) (objectMesh : meshObjFormat α)
    (hne : readParticles crackFile particleVec ≠ []) :
    ∃ s,
      preprocessing stale crackFile cutObjectFile parameters particleVec objectMesh =
          Outcome.returned s ∧
        s.particleVec.length = (readParticles crackFile particleVec).length ∧
        (∀ i : Nat, s.particleVec[i]? =
          ((readParticles crackFile particleVec)[i]?).map
            (fun p => { p with pos := p.pos.sub s.parameters.minCoordinate })) ∧
        s.objectMesh.vertices.length = cutObjectFile.vertices.length ∧
        (∀ m : Nat, s.objectMesh.vertices[m]? =
          (cutObjectFile.vertices[m]?).map (fun v => v.sub s.parameters.minCoordinate)) ∧
        s.objectMesh.faces = cutObjectFile.faces := by
  cases h : readParticles crackFile particleVec with
  | nil => exact absurd h hne
  | cons p0 rest =>
    refine ⟨_, preprocessing_of_cons _ _ _ _ _ _ p0 rest h, ?_, ?_, ?_, ?_, rfl⟩
    · simp
    · intro i
      simp only [List.getElem?_map]
      rfl
    · simp
    · intro m
      simp only [List.getElem?_map]

/-- C3, evaluated on a two-line particle file and a one-triangle mesh. -/
theorem preprocessing_shifts_by_minCoordinate_witness :
    readParticles exampleCrackFile [] ≠ [] ∧
      ∃ s,
        preprocessing none exampleCrackFile exampleCutObject exampleParameters [] emptyMesh =
            Outcome.returned s ∧
          s.particleVec.length = (readParticles exampleCrackFile []).length ∧
          (∀ i : Nat, s.particleVec[i]? =
            ((readParticles exampleCrackFile [])[i]?).map
              (fun p => { p with pos := p.pos.sub s.parameters.minCoordinate })) ∧
          s.objectMesh.vertices.length = exampleCutObject.vertices.length ∧
          (∀ m : Nat, s.objectMesh.vertices[m]? =
            (exampleCutObject.vertices[m]?).map (fun v => v.sub s.parameters.minCoordinate)) ∧
          s.objectMesh.faces = exampleCutObject.faces :=
  ⟨by simp [readParticles, exampleCrackFile],
    preprocessing_shifts_by_minCoordinate none exampleCrackFile exampleCutObject exampleParameters []
      emptyMesh (by simp [readParticles, exampleCrackFile])⟩

/-- C5: for a non-empty particle list and `dx > 0`, after `preprocessing` every
coordinate `c` of every particle position satisfies
`10*dx ≤ c ≤ length - 10*dx` on its axis, hence `0 < c ≤ length`, and on each
axis some particle has the coordinate exactly `10*dx`. -/
theorem preprocessing_positive_domain (stale : Option (Particle α))
    (crackFile : List (ParticleLine α))
    (cutObjectFile : meshObjFormat α) (parameters : parametersSim α)
    (particleVec : List (Particle α)) (objectMesh : meshObjFormat α)
    (hne : readParticles crackFile particleVec ≠ []) (hdx : 0 < parameters.dx) :
    ∃ s,
      preprocessing stale crackFile cutObjectFile parameters particleVec objectMesh =
          Outcome.returned s ∧
        (∀ p ∈ s.particleVec,
          (10 * parameters.dx ≤ p.pos.x ∧ p.pos.x ≤ s.parameters.length.x - 10 * parameters.dx) ∧
          (10 * parameters.dx ≤ p.pos.y ∧ p.pos.y ≤ s.parameters.length.y - 10 * parameters.dx) ∧
          (10 * parameters.dx ≤ p.pos.z ∧ p.pos.z ≤ s.parameters.length.z - 10 * parameters.dx) ∧
          (0 < p.pos.x ∧ p.pos.x ≤ s.parameters.length.x) ∧
          (0 < p.pos.y ∧ p.pos.y ≤ s.parameters.length.y) ∧
          (0 < p.pos.z ∧ p.pos.z ≤ s.parameters.length.z)) ∧
        (∃ p ∈ s.particleVec, p.pos.x = 10 * parameters.dx) ∧
        (∃ p ∈ s.particleVec, p.pos.y = 10 * parameters.dx) ∧
        (∃ p ∈ s.particleVec, p.pos.z = 10 * parameters.dx) := by
  cases h : readParticles crackFile particleVec with
  | nil => exact absurd h hne
  | cons p0 rest =>
    obtain ⟨⟨⟨⟨qx, hqx, hqxe⟩, hxlo⟩, ⟨⟨qy, hqy, hqye⟩, hylo⟩, ⟨⟨qz, hqz, hqze⟩, hzlo⟩⟩,
      ⟨⟨_, hxhi⟩, ⟨_, hyhi⟩, ⟨_, hzhi⟩⟩⟩ := boundsLoop_spec p0 rest
    refine ⟨_, preprocessing_of_cons _ _ _ _ _ _ p0 rest h, ?_, ?_, ?_, ?_⟩
    · intro p hp
      obtain ⟨q, hq, rfl⟩ := List.mem_map.mp hp
      have hx1 := hxlo q hq
      have hx2 := hxhi q hq
      have hy1 := hylo q hq
      have hy2 := hyhi q hq
      have hz1 := hzlo q hq
      have hz2 := hzhi q hq
      simp only [shiftParticle, Vector3d.sub, minCoordinateOf, lengthOf] at *
      refine ⟨⟨?_, ?_⟩, ⟨?_, ?_⟩, ⟨?_, ?_⟩, ⟨?_, ?_⟩, ⟨?_, ?_⟩, ⟨?_, ?_⟩⟩ <;> linarith
    · refine ⟨shiftParticle _ qx, List.mem_map_of_mem _ hqx, ?_⟩
      simp only [shiftParticle, Vector3d.sub, minCoordinateOf] at *
      rw [hqxe]; ring
    · refine ⟨shiftParticle _ qy, List.mem_map_of_mem _ hqy, ?_⟩
      simp only [shiftParticle, Vector3d.sub, minCoordinateOf] at *
      rw [hqye]; ring
    · refine ⟨shiftParticle _ qz, List.mem_map_of_mem _ hqz, ?_⟩
      simp only [shiftParticle, Vector3d.sub, minCoordinateOf] at *
      rw [hqze]; ring

/-- C5, evaluated on a two-line particle file with `dx = 1`. -/
theorem preprocessing_positive_domain_witness :
    (readParticles exampleCrackFile [] ≠ [] ∧ 0 < exampleParameters.dx) ∧
      ∃ s,
        preprocessing none exampleCrackFile exampleCutObject exampleParameters [] emptyMesh =
            Outcome.returned s ∧
          (∀ p ∈ s.particleVec,
            (10 * exampleParameters.dx ≤ p.pos.x ∧
              p.pos.x ≤ s.parameters.length.x - 10 * exampleParameters.dx) ∧
            (10 * exampleParameters.dx ≤ p.pos.y ∧
              p.pos.y ≤ s.parameters.length.y - 10 * exampleParameters.dx) ∧
            (10 * exampleParameters.dx ≤ p.pos.z ∧
              p.pos.z ≤ s.parameters.length.z - 10 * exampleParameters.dx) ∧
            (0 < p.pos.x ∧ p.pos.x ≤ s.parameters.length.x) ∧
            (0 < p.pos.y ∧ p.pos.y ≤ s.parameters.length.y) ∧
            (0 < p.pos.z ∧ p.pos.z ≤ s.parameters.length.z)) ∧
          (∃ p ∈ s.particleVec, p.pos.x = 10 * exampleParameters.dx) ∧
          (∃ p ∈ s.particleVec, p.pos.y = 10 * exampleParameters.dx) ∧
          (∃ p ∈ s.particleVec, p.pos.z = 10 * exampleParameters.dx) :=
  ⟨⟨by simp [readParticles, exampleCrackFile], by norm_num [exampleParameters]⟩,
    preprocessing_positive_domain none exampleCrackFile exampleCutObject exampleParameters []
      emptyMesh (by simp [readParticles, exampleCrackFile]) (by norm_num [exampleParameters])⟩

/-- C4: `postprocessing` adds `parameters.minCoordinate` to every vertex of the
partial-cut surface (element 1), of the full-cut surface (element 2), of every
fragment (element 3) and of the object mesh, and changes nothing else: the flag,
every face list, the number of fragments, the number of vertices of each mesh and
the parameters (hence `minCoordinate` and `length`) are as before the call. -/
theorem postprocessing_adds_minCoordinate_only (parameters : parametersSim α)
    (crackSurface : CrackSurface α) (objectMesh : meshObjFormat α) :
    (postprocessing parameters crackSurface objectMesh).parameters = parameters ∧
      (postprocessing parameters crackSurface objectMesh).crackSurface.1 = crackSurface.1 ∧
      (postprocessing parameters crackSurface objectMesh).crackSurface.2.1 =
        { vertices := crackSurface.2.1.vertices.map (fun v => v.add parameters.minCoordinate)
          faces := crackSurface.2.1.faces } ∧
      (postprocessing parameters crackSurface objectMesh).crackSurface.2.2.1 =
        { vertices := crackSurface.2.2.1.vertices.map (fun v => v.add parameters.minCoordinate)
          faces := crackSurface.2.2.1.faces } ∧
      (postprocessing parameters crackSurface objectMesh).crackSurface.2.2.2.length =
        crackSurface.2.2.2.length ∧
      (∀ i : Nat, (postprocessing parameters crackSurface objectMesh).crackSurface.2.2.2[i]? =
        (crackSurface.2.2.2[i]?).map (fun m =>
          { vertices := m.vertices.map (fun v => v.add parameters.minCoordinate)
            faces := m.faces })) ∧
      (postprocessing parameters crackSurface objectMesh).objectMesh =
        { vertices := objectMesh.vertices.map (fun v => v.add parameters.minCoordinate)
          faces := objectMesh.faces } ∧
      (postprocessing parameters crackSurface objectMesh).crackSurface.2.1.vertices.length =
        crackSurface.2.1.vertices.length ∧
      (postprocessing parameters crackSurface objectMesh).crackSurface.2.2.1.vertices.length =
        crackSurface.2.2.1.vertices.length ∧
      (∀ (i : Nat) (m : meshObjFormat α), crackSurface.2.2.2[i]? = some m →
        ((postprocessing parameters crackSurface objectMesh).crackSurface.2.2.2[i]?).map
          (fun r => r.vertices.length) = some m.vertices.length) ∧
      (postprocessing parameters crackSurface objectMesh).objectMesh.vertices.length =
        objectMesh.vertices.length := by
  refine ⟨rfl, rfl, rfl, rfl, ?_, ?_, rfl, ?_, ?_, ?_, ?_⟩
  · simp [postprocessing]
  · intro i
    simp only [postprocessing, List.getElem?_map]
    rfl
  · simp [postprocessing, unshiftMesh]
  · simp [postprocessing, unshiftMesh]
  · intro i m hm
    simp [postprocessing, unshiftMesh, List.getElem?_map, hm]
  · simp [postprocessing, unshiftMesh]

/-- C1 as stated fails: with one particle at the origin and `dx = 1`, running
`postprocessing` after `preprocessing` leaves the particle at `(10, 10, 10)`, so
the pair (particle positions, object mesh) is not the pair that was read. -/
theorem normalizeDenormalize_not_identity_on_particles :
    ¬ ∃ s,
      normalizeDenormalize none originCrackFile exampleCutObject exampleParameters [] emptyMesh
          exampleCrackSurface = Outcome.returned s ∧
        s.particleVec.map (fun p => p.pos) =
          (readParticles originCrackFile []).map (fun p => p.pos) ∧
        s.post.objectMesh = exampleCutObject := by
  rintro ⟨s, hs, hp, -⟩
  have h0 : readParticles originCrackFile [] =
      [Particle.mk ⟨0, 0, 0⟩ ⟨0, 0, 0⟩ 0 0 1] := by
    simp [readParticles, originCrackFile]
  rw [normalizeDenormalize_of_cons _ _ _ _ _ _ _ _ _ h0] at hs
  simp only [Outcome.returned.injEq] at hs
  subst hs
  rw [h0] at hp
  simp [shiftParticle, Vector3d.sub, minCoordinateOf, boundsLoop, initBounds, boundsStep,
    stdMin, exampleParameters] at hp

/-- C1 (amended): for a non-empty particle list, every mesh and every `dx`,
running `postprocessing` after `preprocessing` returns, and the object mesh is
the mesh that was read (same vertices, same faces).  The particle positions are
not moved back: each is its original minus the stored `minCoordinate`, so adding
`minCoordinate` gives the original position. -/
theorem normalizeDenormalize_restores_mesh (stale : Option (Particle α))
    (crackFile : List (ParticleLine α))
    (cutObjectFile : meshObjFormat α) (parameters : parametersSim α)
    (particleVec : List (Particle α)) (objectMesh : meshObjFormat α)
    (crackSurface : CrackSurface α)
    (hne : readParticles crackFile particleVec ≠ []) :
    ∃ s,
      normalizeDenormalize stale crackFile cutObjectFile parameters particleVec objectMesh
          crackSurface = Outcome.returned s ∧
        s.post.objectMesh = cutObjectFile ∧
        s.particleVec.map (fun p => p.pos) =
          (readParticles crackFile particleVec).map
            (fun p => p.pos.sub s.post.parameters.minCoordinate) ∧
        s.particleVec.map (fun p => p.pos.add s.post.parameters.minCoordinate) =
          (readParticles crackFile particleVec).map (fun p => p.pos) := by
  cases h : readParticles crackFile particleVec with
  | nil => exact absurd h hne
  | cons p0 rest =>
    refine ⟨_, normalizeDenormalize_of_cons _ _ _ _ _ _ _ p0 rest h, ?_, ?_, ?_⟩
    · cases cutObjectFile with
      | mk vs fs =>
        simp only [postprocessing, unshiftMesh, List.map_map, meshObjFormat.mk.injEq, and_true]
        conv_rhs => rw [← List.map_id vs]
        apply List.map_congr_left
        intro v _
        simp [Vector3d.sub_add_cancel]
    · simp only [postprocessing, List.map_map]
      rfl
    · simp only [postprocessing, List.map_map]
      apply List.map_congr_left
      intro p _
      simp [shiftParticle, Vector3d.sub_add_cancel]

/-- C1 (amended), evaluated on a two-line particle file and a one-triangle mesh. -/
theorem normalizeDenormalize_restores_mesh_witness :
    readParticles exampleCrackFile [] ≠ [] ∧
      ∃ s,
        normalizeDenormalize none exampleCrackFile exampleCutObject exampleParameters [] emptyMesh
            exampleCrackSurface = Outcome.returned s ∧
          s.post.objectMesh = exampleCutObject ∧
          s.particleVec.map (fun p => p.pos) =
            (readParticles exampleCrackFile []).map
              (fun p => p.pos.sub s.post.parameters.minCoordinate) ∧
          s.particleVec.map (fun p => p.pos.add s.post.parameters.minCoordinate) =
            (readParticles exampleCrackFile []).map (fun p => p.pos) :=
  ⟨by simp [readParticles, exampleCrackFile],
    normalizeDenormalize_restores_mesh none exampleCrackFile exampleCutObject exampleParameters []
      emptyMesh exampleCrackSurface (by simp [readParticles, exampleCrackFile])⟩

/-- C5 as stated fails on the code's `double` arithmetic.  With `dx = 0.002`
(the value `main` sets) and one particle at `x = -1.998`, the shifted `x` is
`90071992547409 * 2 ^ (-52) = 0.019999999999999796`, below `10 * dx`; with
`dx = 0.5` and one particle at `x = 1e17` the shifted `x` is `0`, not positive. -/
theorem preprocessing_double_rounding_breaks_bounds :
    (readParticles nearCrackFileDouble [] ≠ [] ∧ 0 < mainParametersDouble.dx ∧
      ∃ s,
        preprocessing none nearCrackFileDouble emptyMeshDouble mainParametersDouble []
            emptyMeshDouble = Outcome.returned s ∧
          ∃ p ∈ s.particleVec,
            p.pos.x = ⟨90071992547409, -52⟩ ∧ ¬ (10 * mainParametersDouble.dx ≤ p.pos.x)) ∧
      (readParticles farCrackFileDouble [] ≠ [] ∧ 0 < halfParametersDouble.dx ∧
        ∃ s,
          preprocessing none farCrackFileDouble emptyMeshDouble halfParametersDouble []
              emptyMeshDouble = Outcome.returned s ∧
            ∃ p ∈ s.particleVec, ¬ (0 < p.pos.x)) :=
  ⟨⟨by decide, by decide, _, rfl, by decide⟩, ⟨by decide, by decide, _, rfl, by decide⟩⟩

/-- C9 as stated fails: on an empty particle file (and an empty vector on entry)
`preprocessing` does not report `EmptyInputError`, neither when the unchecked
read of element 0 faults nor when it yields a value; in the second case it
returns with `minCoordinate`, `length` and the object mesh set from that value. -/
theorem preprocessing_empty_not_EmptyInputError :
    preprocessing none ([] : List (ParticleLine ℚ)) exampleCutObject exampleParameters []
        emptyMesh ≠ Outcome.reported SpecError.EmptyInputError ∧
      preprocessing (some staleParticle) [] exampleCutObject exampleParameters [] emptyMesh ≠
        Outcome.reported SpecError.EmptyInputError ∧
      ∃ s,
        preprocessing (some staleParticle) [] exampleCutObject exampleParameters [] emptyMesh =
            Outcome.returned s ∧
          s.parameters.minCoordinate = ⟨-7, -8, -9⟩ ∧
          s.parameters.length = ⟨20, 20, 20⟩ ∧
          s.objectMesh.vertices = [⟨8, 9, 10⟩, ⟨9, 9, 10⟩, ⟨8, 11, 10⟩] := by
  refine ⟨?_, ?_, _, rfl, ?_, ?_, ?_⟩
  · simp [preprocessing, elementZero, readParticles]
  · simp [preprocessing, elementZero, readParticles]
  · simp only [readParticles, List.foldl_nil, boundsLoop, initBounds, minCoordinateOf,
      staleParticle, exampleParameters]
    norm_num
  · simp only [readParticles, List.foldl_nil, boundsLoop, initBounds, lengthOf,
      staleParticle, exampleParameters]
    norm_num
  · simp only [readParticles, List.foldl_nil, boundsLoop, initBounds, minCoordinateOf,
      staleParticle, exampleParameters, exampleCutObject, List.map_cons, List.map_nil,
      Vector3d.sub]
    norm_num

/-- C9 (amended): `preprocessing` reports no error, `EmptyInputError` or other,
on any input, whatever the particle file and the vector hold and whatever an
unchecked read does: it has no empty-input check and no error path. -/
theorem preprocessing_reports_no_error (stale : Option (Particle α))
    (crackFile : List (ParticleLine α)) (cutObjectFile : meshObjFormat α)
    (parameters : parametersSim α) (particleVec : List (Particle α))
    (objectMesh : meshObjFormat α) (e : SpecError) :
    preprocessing stale crackFile cutObjectFile parameters particleVec objectMesh ≠
      Outcome.reported e := by
  cases h : elementZero stale (readParticles crackFile particleVec) with
  | none => simp [preprocessing, h]
  | some p0 => simp [preprocessing, h]

end NormalizerClaims

section GridClaims

variable {α : Type} [LinearOrderedField α]

/-- C6: the boolean stage of `main` is the level-set difference object minus
crack.  With `A` the object grid and `B` the offset-corrected crack grid, the
result at every voxel `v` that is active in `A` or in `B` is
`max (A v) (-(B v))`, an inactive voxel being read as the background value; a
voxel inactive in both stays inactive; the crack grid and the object grid
themselves are as before (the operation ran on deep copies). -/
theorem booleanStage_is_object_minus_crack (crackLevelSetGrid objectLevelSetGrid : FloatGrid α) :
    (∀ v : Coord,
        (objectLevelSetGrid.voxels v).isSome ∨ (crackLevelSetGrid.voxels v).isSome →
        (booleanStage crackLevelSetGrid objectLevelSetGrid).csgSubtractedObjGrid.voxels v =
          some (max (objectLevelSetGrid.read v) (-(crackLevelSetGrid.read v)))) ∧
      (∀ v : Coord, objectLevelSetGrid.voxels v = none → crackLevelSetGrid.voxels v = none →
        (booleanStage crackLevelSetGrid objectLevelSetGrid).csgSubtractedObjGrid.voxels v =
          none) ∧
      (∀ v : Coord, objectLevelSetGrid.voxels v = none →
        objectLevelSetGrid.read v = objectLevelSetGrid.background) ∧
      (∀ v : Coord, crackLevelSetGrid.voxels v = none →
        crackLevelSetGrid.read v = crackLevelSetGrid.background) ∧
      (booleanStage crackLevelSetGrid objectLevelSetGrid).crackLevelSetGrid =
        crackLevelSetGrid ∧
      (booleanStage crackLevelSetGrid objectLevelSetGrid).objectLevelSetGrid =
        objectLevelSetGrid := by
  refine ⟨?_, ?_, ?_, ?_, rfl, rfl⟩
  · intro v hv
    have hb : ((objectLevelSetGrid.voxels v).isSome || (crackLevelSetGrid.voxels v).isSome)
        = true := by
      rcases hv with h | h <;> simp [h]
    simp only [booleanStage, csgDifference, FloatGrid.deepCopy, FloatGrid.read, hb, if_true]
  · intro v ho hc
    simp [booleanStage, csgDifference, FloatGrid.deepCopy, ho, hc]
  · intro v ho
    simp [FloatGrid.read, ho]
  · intro v hc
    simp [FloatGrid.read, hc]

/-- C7: for every voxel size `> 0` the margin the code computes,
`sqrt (3 * voxelSize ^ 2)`, is `sqrt 3 * voxelSize` over the reals; the offset
corrector replaces the value `dist` of every active voxel by
`dist - sqrt 3 * voxelSize`, leaves every inactive voxel inactive and the
background value as it was, so a new value is negative exactly when the old
distance was below `sqrt 3 * voxelSize`; the grid is tagged as a level set. -/
theorem offsetCorrector_subtracts_margin (vdbVoxelSize : ℝ) (g : FloatGrid ℝ)
    (hv : 0 < vdbVoxelSize) :
    Real.sqrt (3 * vdbVoxelSize ^ 2) = Real.sqrt 3 * vdbVoxelSize ∧
      (∀ (v : Coord) (dist : ℝ), g.voxels v = some dist →
        (offsetCorrector Real.sqrt vdbVoxelSize g).voxels v =
          some (dist - Real.sqrt 3 * vdbVoxelSize)) ∧
      (∀ v : Coord, g.voxels v = none →
        (offsetCorrector Real.sqrt vdbVoxelSize g).voxels v = none) ∧
      (offsetCorrector Real.sqrt vdbVoxelSize g).background = g.background ∧
      (∀ (v : Coord) (dist value : ℝ), g.voxels v = some dist →
        (offsetCorrector Real.sqrt vdbVoxelSize g).voxels v = some value →
        (value < 0 ↔ dist < Real.sqrt 3 * vdbVoxelSize)) ∧
      (offsetCorrector Real.sqrt vdbVoxelSize g).gridClass = GridClass.GRID_LEVEL_SET := by
  have hm : Real.sqrt (3 * vdbVoxelSize ^ 2) = Real.sqrt 3 * vdbVoxelSize := by
    rw [Real.sqrt_mul (by norm_num : (0 : ℝ) ≤ 3), Real.sqrt_sq hv.le]
  refine ⟨hm, ?_, ?_, rfl, ?_, rfl⟩
  · intro v dist hd
    simp [offsetCorrector, offsetLoop, FloatGrid.setGridClass, hd, hm]
  · intro v hd
    simp [offsetCorrector, offsetLoop, FloatGrid.setGridClass, hd]
  · intro v dist value hd hval
    simp only [offsetCorrector, offsetLoop, FloatGrid.setGridClass, hd, hm, Option.map_some',
      Option.some.injEq] at hval
    rw [← hval]
    exact sub_neg

/-- C7, evaluated with voxel size `1` on a grid with two active voxels. -/
theorem offsetCorrector_subtracts_margin_witness :
    (0 : ℝ) < 1 ∧
      (Real.sqrt (3 * (1 : ℝ) ^ 2) = Real.sqrt 3 * 1 ∧
      (∀ (v : Coord) (dist : ℝ), (exampleCrackGrid : FloatGrid ℝ).voxels v = some dist →
        (offsetCorrector Real.sqrt 1 exampleCrackGrid).voxels v =
          some (dist - Real.sqrt 3 * 1)) ∧
      (∀ v : Coord, (exampleCrackGrid : FloatGrid ℝ).voxels v = none →
        (offsetCorrector Real.sqrt 1 exampleCrackGrid).voxels v = none) ∧
      (offsetCorrector Real.sqrt 1 exampleCrackGrid).background =
        (exampleCrackGrid : FloatGrid ℝ).background ∧
      (∀ (v : Coord) (dist value : ℝ), (exampleCrackGrid : FloatGrid ℝ).voxels v = some dist →
        (offsetCorrector Real.sqrt 1 exampleCrackGrid).voxels v = some value →
        (value < 0 ↔ dist < Real.sqrt 3 * 1)) ∧
      (offsetCorrector Real.sqrt 1 (exampleCrackGrid : FloatGrid ℝ)).gridClass =
        GridClass.GRID_LEVEL_SET) :=
  ⟨one_pos, offsetCorrector_subtracts_margin 1 exampleCrackGrid one_pos⟩

end GridClaims

section SurfaceLemmas

theorem foldl_pushQuad (faces : List Face) (quads : List Vec4I) :
    quads.foldl pushQuad faces = faces ++ quads.flatMap (fun p => [quadF0 p, quadF1 p]) := by
  induction quads generalizing faces with
  | nil => simp
  | cons p ps ih => simp [List.foldl_cons, ih, pushQuad, List.flatMap_cons]

theorem foldl_ignore (faces : List Face) (triangles : List Vec3I) :
    triangles.foldl (fun fs _ => fs) faces = faces := by
  induction triangles with
  | nil => rfl
  | cons t ts ih => simp [List.foldl_cons, ih]

theorem poolLoop_eq (faces : List Face) (pool : PolygonPool) :
    poolLoop faces pool = faces ++ pool.quads.flatMap (fun p => [quadF0 p, quadF1 p]) := by
  simp only [poolLoop, foldl_ignore, foldl_pushQuad]

theorem foldl_poolLoop (faces : List Face) (polys : List PolygonPool) :
    polys.foldl poolLoop faces =
      faces ++ polys.flatMap (fun pool => pool.quads.flatMap (fun p => [quadF0 p, quadF1 p])) := by
  induction polys generalizing faces with
  | nil => simp
  | cons pool ps ih => simp [List.foldl_cons, ih, poolLoop_eq, List.flatMap_cons]

end SurfaceLemmas

section SurfaceClaims

/-- C8: in `getSurfaceMeshFromVdbGrid` a quad `(x, y, z, w)` appends exactly the
two triangles `(z, y, x)` and `(w, z, x)`, and the face list is these pairs over
all quads of all pools.  Both triangles use only corners of the quad and
together they use all four; the first contains the directed edge `x → z`, the
second `z → x`; every other edge of either triangle is a boundary edge of the
quad reversed, and both vertex orders are sub-sequences of the quad's order
`x, y, z, w` reversed, so both have the orientation opposite to the quad's. -/
theorem quad_split_two_triangles_consistent_winding (p : Vec4I) (faces : List Face)
    (polys : List PolygonPool) :
    pushQuad faces p = faces ++ [quadF0 p, quadF1 p] ∧
      quadF0 p = ⟨p.z, p.y, p.x⟩ ∧ quadF1 p = ⟨p.w, p.z, p.x⟩ ∧
      buildFaces polys =
        polys.flatMap (fun pool => pool.quads.flatMap (fun q => [quadF0 q, quadF1 q])) ∧
      (∀ i ∈ (quadF0 p).toList, i ∈ p.corners) ∧
      (∀ i ∈ (quadF1 p).toList, i ∈ p.corners) ∧
      (∀ c ∈ p.corners, c ∈ (quadF0 p).toList ∨ c ∈ (quadF1 p).toList) ∧
      (((p.x : Int), (p.z : Int)) ∈ (quadF0 p).edges ∧
        ((p.z : Int), (p.x : Int)) ∈ (quadF1 p).edges) ∧
      (∀ e ∈ (quadF0 p).edges, e = ((p.x : Int), (p.z : Int)) ∨ (e.2, e.1) ∈ p.edges) ∧
      (∀ e ∈ (quadF1 p).edges, e = ((p.z : Int), (p.x : Int)) ∨ (e.2, e.1) ∈ p.edges) ∧
      (quadF0 p).toList.Sublist p.corners.reverse ∧
      (quadF1 p).toList.Sublist p.corners.reverse := by
  refine ⟨by simp [pushQuad], rfl, rfl, ?_, ?_, ?_, ?_, ?_, ?_, ?_, ?_, ?_⟩
  · simp [buildFaces, foldl_poolLoop]
  · intro i hi
    simp only [Face.toList, quadF0, Vec4I.corners, List.mem_cons, List.mem_singleton,
      List.not_mem_nil, or_false] at *
    tauto
  · intro i hi
    simp only [Face.toList, quadF1, Vec4I.corners, List.mem_cons, List.mem_singleton,
      List.not_mem_nil, or_false] at *
    tauto
  · intro c hc
    simp only [Face.toList, quadF0, quadF1, Vec4I.corners, List.mem_cons, List.mem_singleton,
      List.not_mem_nil, or_false] at *
    tauto
  · simp [Face.edges, quadF0, quadF1]
  · intro e he
    simp only [Face.edges, quadF0, Vec4I.edges, List.mem_cons, List.mem_singleton,
      List.not_mem_nil, or_false] at *
    rcases he with rfl | rfl | rfl <;> simp
  · intro e he
    simp only [Face.edges, quadF1, Vec4I.edges, List.mem_cons, List.mem_singleton,
      List.not_mem_nil, or_false] at *
    rcases he with rfl | rfl | rfl <;> simp
  · exact List.Sublist.cons _ (List.Sublist.refl _)
  · exact List.Sublist.cons₂ _ (List.Sublist.cons₂ _ (List.Sublist.cons _ (List.Sublist.refl _)))

end SurfaceClaims

section MainLemmas

/-- A run whose third call is its only call of `postprocessing`, after two calls
that are not geometric steps, calls `postprocessing` before every geometric
step. -/
theorem denormalizerFirst_of_third (a b : Call) (rest : List Call)
    (ha : a ≠ Call.postprocessing) (hb : b ≠ Call.postprocessing)
    (hga : a.isGeometricStep = false) (hgb : b.isGeometricStep = false)
    (hrest : Call.postprocessing ∉ rest) :
    DenormalizerFirst (a :: b :: Call.postprocessing :: rest) := by
  intro before after h c hc
  match before, h, hc with
  | [], h, hc => simp at hc
  | [x], h, hc =>
    simp only [List.singleton_append, List.cons.injEq] at h
    exact absurd h.2.1 hb
  | [x, y], h, hc =>
    simp only [List.cons_append, List.nil_append, List.cons.injEq] at h
    obtain ⟨rfl, rfl, -⟩ := h
    simp only [List.mem_cons, List.mem_singleton, List.not_mem_nil, or_false] at hc
    rcases hc with rfl | rfl
    · exact hga
    · exact hgb
  | x :: y :: z :: more, h, hc =>
    simp only [List.cons_append, List.cons.injEq] at h
    obtain ⟨-, -, -, h⟩ := h
    exact absurd (by rw [h]; simp) hrest

theorem postprocessing_not_mem_writes (n : Nat) :
    Call.postprocessing ∉
      [Call.writeObjFile, Call.writeObjFile] ++
        (List.replicate n Call.writeObjFile ++ [Call.writeObjFile]) := by
  simp [List.mem_replicate]

theorem postprocessing_not_mem_callsSwitch (method : Int) (nFragmentsFinal nGrids : Nat) :
    Call.postprocessing ∉ callsSwitch method nFragmentsFinal nGrids := by
  unfold callsSwitch callsCase0 callsCaseVdb
  split_ifs <;> simp [List.mem_replicate]

end MainLemmas

section MainClaims

/-- C10 as stated fails: in a run of `main` with one crack fragment and one final
fragment, no rasterizing, CSG, segmentation or surface-extraction call is made,
and `postprocessing` is followed by the cutting step `cutObject_MCUT`. -/
theorem main_not_spec_pipeline_order :
    ¬ RunsVdbStages (main 1 1 1) ∧ ¬ DenormalizerLast (main 1 1 1) := by
  constructor
  · intro h
    exact absurd h.2.2.1 (by decide)
  · intro h
    have := h [Call.preprocessing, Call.extractCrackSurface]
      [Call.writeObjFile, Call.writeObjFile, Call.writeObjFile, Call.writeObjFile,
        Call.cutObject_MCUT, Call.writeObjFile] (by decide) Call.cutObject_MCUT (by decide)
    exact absurd this (by decide)

/-- C10 (amended): whatever the sizes of the fragment lists and whatever of the
values 0, 1, 2 the cutting method has, the first three calls are
`preprocessing`, `extractCrackSurface`, `postprocessing`, in this order, and
`postprocessing` is called before every cutting, rasterizing, CSG, segmentation
or extraction step.  As `cuttingMethod` is 0, `main` then calls
`cutObject_MCUT` and makes no rasterizing, offset, CSG, segmentation or surface
extraction call.  In the code of methods 1 and 2 the steps follow in the order
crack rasterization, offset loop, object rasterization, `csgDifference`,
`segmentSDF`, and then one `getSurfaceMeshFromVdbGrid` per fragment grid. -/
theorem main_call_order (method : Int) (nFragments nFragmentsFinal nGrids : Nat) :
    (mainCalls method nFragments nFragmentsFinal nGrids).take 3 =
        [Call.preprocessing, Call.extractCrackSurface, Call.postprocessing] ∧
      DenormalizerFirst (mainCalls method nFragments nFragmentsFinal nGrids) ∧
      main nFragments nFragmentsFinal nGrids = mainCalls 0 nFragments nFragmentsFinal nGrids ∧
      Call.cutObject_MCUT ∈ main nFragments nFragmentsFinal nGrids ∧
      (∀ c ∈ main nFragments nFragmentsFinal nGrids,
        c ≠ Call.meshToUnsignedDistanceField ∧ c ≠ Call.offsetLoop ∧ c ≠ Call.meshToLevelSet ∧
          c ≠ Call.csgDifference ∧ c ≠ Call.segmentSDF ∧ c ≠ Call.getSurfaceMeshFromVdbGrid) ∧
      mainCalls 2 nFragments nFragmentsFinal nGrids =
        mainCalls 1 nFragments nFragmentsFinal nGrids ∧
      [Call.preprocessing, Call.extractCrackSurface, Call.postprocessing,
          Call.meshToUnsignedDistanceField, Call.offsetLoop, Call.meshToLevelSet,
          Call.csgDifference, Call.segmentSDF].Sublist
        (mainCalls 1 nFragments nFragmentsFinal nGrids) ∧
      (∃ before : List Call,
        mainCalls 1 nFragments nFragmentsFinal nGrids =
            before ++ Call.segmentSDF ::
              (List.replicate nGrids
                [Call.getSurfaceMeshFromVdbGrid, Call.writeObjFile]).flatten ∧
          Call.getSurfaceMeshFromVdbGrid ∉ before) := by
  refine ⟨rfl, ?_, rfl, ?_, ?_, rfl, ?_, ?_⟩
  · refine denormalizerFirst_of_third _ _ _ (by decide) (by decide) rfl rfl ?_
    intro h
    rcases List.mem_append.mp h with h | h
    · exact postprocessing_not_mem_writes nFragments h
    · exact postprocessing_not_mem_callsSwitch method nFragmentsFinal nGrids h
  · simp [main, mainCalls, cuttingMethod, callsSwitch, callsCase0]
  · intro c hc
    have hc5 : c = Call.preprocessing ∨ c = Call.extractCrackSurface ∨
        c = Call.postprocessing ∨ c = Call.writeObjFile ∨ c = Call.cutObject_MCUT := by
      simp only [main, mainCalls, cuttingMethod, callsSwitch, callsCase0, callsBeforeSwitch,
        if_true, List.mem_append, List.mem_cons, List.mem_replicate, List.mem_singleton,
        List.not_mem_nil, or_false] at hc
      tauto
    rcases hc5 with rfl | rfl | rfl | rfl | rfl <;> decide
  · have h0 : [Call.preprocessing, Call.extractCrackSurface, Call.postprocessing].Sublist
        (callsBeforeSwitch nFragments) := List.sublist_append_left _ _
    have hs : callsSwitch 1 nFragmentsFinal nGrids = callsCaseVdb nGrids := rfl
    have h1 : [Call.meshToUnsignedDistanceField, Call.offsetLoop, Call.meshToLevelSet,
        Call.csgDifference, Call.segmentSDF].Sublist (callsSwitch 1 nFragmentsFinal nGrids) := by
      rw [hs]
      exact List.Sublist.trans (by decide) (List.sublist_append_left _ _)
    exact h0.append h1
  · refine ⟨callsBeforeSwitch nFragments ++
      [Call.createLinearTransform, Call.triangulateGenericMesh,
        Call.meshToUnsignedDistanceField, Call.offsetLoop, Call.setGridClass,
        Call.triangulateGenericMesh, Call.meshToLevelSet, Call.setGridClass, Call.deepCopy,
        Call.deepCopy, Call.csgDifference], ?_, ?_⟩
    · simp [mainCalls, callsSwitch, callsCaseVdb]
    · simp [callsBeforeSwitch, List.mem_replicate]

end MainClaims

section DecimationInput

theorem matrixF_eq (faces : List Face) : matrixF faces = faces := by
  unfold matrixF
  exact List.map_id faces

theorem matrixV_eq {α : Type} (vertices : List (Vector3d α)) : matrixV vertices = vertices := by
  unfold matrixV
  exact List.map_id vertices

theorem foldl_pushVertex {α : Type} (vs verts : List (Vector3d α)) :
    verts.foldl (fun acc v => acc ++ [Vector3d.mk v.x v.y v.z]) vs = vs ++ verts := by
  induction verts generalizing vs with
  | nil => simp
  | cons v rest ih => simp [List.foldl_cons, ih]

theorem length_splitQuads (quads : List Vec4I) :
    (quads.flatMap (fun q => [quadF0 q, quadF1 q])).length = 2 * quads.length := by
  induction quads with
  | nil => rfl
  | cons q rest ih =>
    simp only [List.flatMap_cons, List.length_append, List.length_cons, List.length_nil, ih]
    omega

theorem length_splitPools (polys : List PolygonPool) :
    (polys.flatMap (fun pool => pool.quads.flatMap (fun q => [quadF0 q, quadF1 q]))).length =
      2 * totalQuads polys := by
  induction polys with
  | nil => rfl
  | cons pool rest ih =>
    simp only [List.flatMap_cons, List.length_append, length_splitQuads, ih, totalQuads,
      List.map_cons, List.sum_cons]
    omega

theorem splitPools_dropTriangles (polys : List PolygonPool) :
    (dropTriangles polys).flatMap (fun pool => pool.quads.flatMap (fun q => [quadF0 q, quadF1 q])) =
      polys.flatMap (fun pool => pool.quads.flatMap (fun q => [quadF0 q, quadF1 q])) := by
  induction polys with
  | nil => rfl
  | cons pool rest ih =>
    simp only [dropTriangles, List.map_cons, List.flatMap_cons] at ih ⊢
    rw [ih]

/-- C11: in `getSurfaceMeshFromVdbGrid` the face list handed to decimation is
built from the quads only.  For every pool list it is the two triangles of each
quad, pools in order and quads in order within a pool, so it has exactly twice
as many faces as there are quads over all pools; it is the same list when the
native triangles of every pool are removed, and the same for any two pool lists
with the same quads.  The vertex list handed to decimation is the contouring
point list: every point once, in its original order, with its three coordinates
unchanged. -/
theorem decimation_input_from_quads_only {α : Type} (verts : List (Vector3d α))
    (polys : List PolygonPool) :
    matrixF (buildFaces polys) =
        polys.flatMap (fun pool => pool.quads.flatMap (fun q => [quadF0 q, quadF1 q])) ∧
      (matrixF (buildFaces polys)).length = 2 * totalQuads polys ∧
      matrixF (buildFaces (dropTriangles polys)) = matrixF (buildFaces polys) ∧
      (∀ polys2 : List PolygonPool,
        polys2.map (fun pool => pool.quads) = polys.map (fun pool => pool.quads) →
        matrixF (buildFaces polys2) = matrixF (buildFaces polys)) ∧
      matrixV (buildVertices verts) = verts ∧
      (matrixV (buildVertices verts)).length = verts.length ∧
      (∀ i : Nat, (matrixV (buildVertices verts))[i]? = verts[i]?) := by
  have hF : ∀ ps : List PolygonPool, matrixF (buildFaces ps) =
      ps.flatMap (fun pool => pool.quads.flatMap (fun q => [quadF0 q, quadF1 q])) := by
    intro ps
    rw [matrixF_eq, buildFaces, foldl_poolLoop, List.nil_append]
  have hmap : ∀ ps : List PolygonPool,
      ps.flatMap (fun pool => pool.quads.flatMap (fun q => [quadF0 q, quadF1 q])) =
        (ps.map (fun pool => pool.quads)).flatMap
          (fun qs => qs.flatMap (fun q => [quadF0 q, quadF1 q])) := by
    intro ps
    induction ps with
    | nil => rfl
    | cons pool rest ih => simp only [List.map_cons, List.flatMap_cons, ih]
  have hV : matrixV (buildVertices verts) = verts := by
    rw [matrixV_eq, buildVertices, foldl_pushVertex, List.nil_append]
  refine ⟨hF polys, ?_, ?_, ?_, hV, ?_, ?_⟩
  · rw [hF, length_splitPools]
  · rw [hF, hF, splitPools_dropTriangles]
  · intro polys2 h
    rw [hF, hF, hmap polys2, hmap polys, h]
  · rw [hV]
  · intro i
    rw [hV]

/-- C11, evaluated on two pools holding three native triangles and three quads:
six faces, those of the quads, in pool order then quad order. -/
theorem decimation_input_from_quads_only_example :
    matrixF (buildFaces examplePolys) =
        [⟨2, 1, 0⟩, ⟨3, 2, 0⟩, ⟨6, 5, 4⟩, ⟨7, 6, 4⟩, ⟨6, 2, 1⟩, ⟨5, 6, 1⟩] ∧
      totalQuads examplePolys = 3 := by
  decide

end DecimationInput

end CrackExtraction
